import Mathlib

/-
  Verification development for the astro-frontmatter-components repository.
  The definitions below are a shallow embedding of the registration and
  validation pipeline found in src/schema.ts, src/integration.ts and the
  sibling iterations of the same module set. Each definition carries a doc
  comment naming the source function it embeds.
-/

set_option linter.unusedVariables false

namespace AstroFM

/-- JSON-like runtime values flowing through the zod validation pipeline.
Numbers are modelled as integers (the claims never exercise fractional
values); objects are ordered field lists, mirroring JS insertion order. -/
inductive JValue where
| str (s : String)
| num (n : Int)
| bool (b : Bool)
| null
| obj (fields : List (String × JValue))
| arr (elems : List JValue)

/-- JS property lookup on an object literal: first binding of the key
(object literals cannot hold two live bindings of one key). Also used for
Record and Map lookups keyed by strings. -/
def lookupVal {α : Type} (m : List (String × α)) (k : String) : Option α :=
  (m.find? (fun p => p.1 == k)).map (fun p => p.2)

/-- JS Record/Map assignment `m[k] = v` / `m.set(k, v)`: replace in place
when the key exists, append otherwise (JS keeps the original insertion
position of an overwritten key). -/
def setKey {α : Type} (m : List (String × α)) (k : String) (v : α) : List (String × α) :=
  match m with
  | [] => [(k, v)]
  | p :: rest => if p.1 = k then (k, v) :: rest else p :: setKey rest k v

/-- JS truthiness of a value: empty string, zero, false and null are falsy;
objects and arrays are always truthy. -/
def jsTruthy : JValue → Bool
  | .str s => !(s == "")
  | .num n => !(n == 0)
  | .bool b => b
  | .null => false
  | .obj _ => true
  | .arr _ => true

/-- The `block?.type` access in parseBlocks: the discriminator field of an
object, and undefined (none) for every non-object value. -/
def typeField : JValue → Option JValue
  | .obj fields => lookupVal fields "type"
  | _ => none

/-- Joins rendered strings with a separator, modelling Array.prototype.join. -/
def joinSep (sep : String) : List String → String
  | [] => ""
  | [x] => x
  | x :: y :: xs => x ++ sep ++ joinSep sep (y :: xs)

/-- JS string coercion used by Array.prototype.join on the collected unknown
discriminators: strings pass through, numbers and booleans print, plain
objects render as [object Object], arrays join their elements with commas. -/
def jsShow : JValue → String
  | .str s => s
  | .num n => toString n
  | .bool b => cond b "true" "false"
  | .null => "null"
  | .obj _ => "[object Object]"
  | .arr xs => joinSep "," (xs.attach.map (fun x => jsShow x.1))
decreasing_by
  have h := List.sizeOf_lt_of_mem x.2
  simp only [JValue.arr.sizeOf_spec]
  omega

/-- Character class [A-Za-z0-9_$] of the sanitization regexes in
src/schema.ts (sanitizeType) and src/integration.ts (toIdentifier). -/
def okChar (c : Char) : Bool :=
  ('a' ≤ c && c ≤ 'z') || ('A' ≤ c && c ≤ 'Z') || ('0' ≤ c && c ≤ '9') || c == '_' || c == '$'

/-- The [0-9] class of the leading-digit regex. -/
def isDigitChar (c : Char) : Bool :=
  '0' ≤ c && c ≤ '9'

/-- One step of the global replacement str.replace(/[^a-zA-Z0-9_$]/g, _). -/
def sanitizeChar (c : Char) : Char :=
  if okChar c then c else '_'

/-- sanitizeType from src/schema.ts on a character list:
str.replace(/[^a-zA-Z0-9_$]/g, U+005F).replace(/^[0-9]/, prefixed underscore).
The second replace keeps the matched digit and writes an underscore before
it, which is what the $& backreference does. -/
def sanitizeList (l : List Char) : List Char :=
  match l.map sanitizeChar with
  | [] => []
  | c :: rest => if isDigitChar c then '_' :: c :: rest else c :: rest

/-- sanitizeType from src/schema.ts (also toIdentifier in integration.ts). -/
def sanitizeType (s : String) : String :=
  ⟨sanitizeList s.data⟩

/-- First character class of the identifier regex of the spec,
[A-Za-z_$]. -/
def identStart (c : Char) : Bool :=
  ('a' ≤ c && c ≤ 'z') || ('A' ≤ c && c ≤ 'Z') || c == '_' || c == '$'

/-- Decides the anchored regex from the spec: a string consisting of one
[A-Za-z_$] character followed by [A-Za-z0-9_$] characters. The empty string
does not match. -/
def matchesIdentRegex (s : String) : Bool :=
  match s.data with
  | [] => false
  | c :: rest => identStart c && rest.all okChar

/-- A string is a sanitized identifier in the sense of the spec exactly when
sanitization leaves it unchanged. -/
def isSanitizedId (s : String) : Bool :=
  sanitizeType s == s

/-- The opaque SchemaContext passed through to every schema builder. The
pipeline never inspects it, so it is modelled as Unit. -/
def SchemaContext : Type := Unit

/-- Field validators of the zod subset the schemas of this repository use in
the spec scenarios: z.string() and z.number(). -/
inductive FieldSchema where
| string
| number
deriving DecidableEq

/-- A schema builder body: the function of the SchemaContext returning the
raw field shape (z.ZodRawShape), as a name-to-validator list. -/
def SchemaBuilderFn : Type := SchemaContext → List (String × FieldSchema)

/-- SchemaComponent from src/integration.ts: typeId, origin path and the
schema builder. The component factory itself is outside the validated
surface and is not modelled. -/
structure SchemaComponent where
  type : String
  path : String
  schema : SchemaBuilderFn

/-- SchemaRegistry from src/integration.ts: the components record plus the
identity token (a Symbol in the source, modelled as a Nat token; distinct
tokens model distinct Symbol values). -/
structure SchemaRegistry where
  components : List (String × SchemaComponent)
  id : Nat

/-- An arbitrary JS value handed to registration as `schema`, described by
the properties the pipeline inspects: whether it is callable, its `type`
property and its `_registryId` property (none models an absent property),
and its call behavior when callable. -/
structure Candidate where
  callable : Bool
  typeId : Option String
  registryId : Option Nat
  builder : SchemaBuilderFn

/-- isSchemaBuilder from src/schema.ts: typeof schema === function,
_registryId present, and _registryId === registry.id. Note that the `type`
property is not inspected. -/
def isSchemaBuilder (schema : Candidate) (registry : SchemaRegistry) : Bool :=
  schema.callable && schema.registryId.isSome && schema.registryId == some registry.id

/-- createSchema from src/schema.ts: tags the builder with the sanitized
type and the identity token of the owning registry (the source reads it via
getRegistry(); here the token is passed explicitly). -/
def createSchema (type : String) (builder : SchemaBuilderFn) (registryId : Nat) : Candidate :=
  ⟨true, some (sanitizeType type), some registryId, builder⟩

/-- path.split(U+002F) of JS: splitting the character list on slashes,
never returning an empty list. -/
def splitSlash : List Char → List (List Char)
  | [] => [[]]
  | c :: rest =>
    if c = '/' then [] :: splitSlash rest
    else
      match splitSlash rest with
      | [] => [[c]]
      | seg :: segs => (c :: seg) :: segs

/-- The characters of ".astro". -/
def astroExt : List Char := ['.', 'a', 's', 't', 'r', 'o']

/-- seg.replace(".astro", ""): removes the first occurrence only, which is
what String.prototype.replace does with a string pattern. -/
def stripAstroOnce : List Char → List Char
  | [] => []
  | c :: rest =>
    if astroExt.isPrefixOf (c :: rest) then (c :: rest).drop astroExt.length
    else c :: stripAstroOnce rest

/-- getType from src/schema.ts (part_002 iteration), used by buildAstroBlock
in src/integration.ts: last path segment with its first ".astro" removed.
split never yields an empty array in JS, so the result is always present. -/
def getType (path : String) : Option String :=
  ((splitSlash path.data).getLast?).map (fun seg => ⟨stripAstroOnce seg⟩)

/-- Log severity of the AstroIntegrationLogger calls. -/
inductive LogLevel where
| info
| warn
| error
deriving DecidableEq

/-- Result of one registration attempt: the updated registry, the log lines
emitted during the call, and the boolean return value. -/
structure RegResult where
  registry : SchemaRegistry
  log : List (LogLevel × String)
  isNew : Bool

/-- buildAstroBlock from src/integration.ts: validate the candidate with
isSchemaBuilder, derive the typeId from the path with getType, then insert
unconditionally (the duplicate check present in sibling iterations is
commented out in this file, so an existing entry under the same typeId is
replaced). The logger parameter becomes the returned log list. -/
def buildAstroBlock (path : String) (registry : SchemaRegistry) (schema : Candidate) : RegResult :=
  if !(isSchemaBuilder schema registry) then
    ⟨registry,
     [(LogLevel.error,
       "Invalid schema at " ++ path ++ ". Schema must be created with createSchema. Refer to docs.")],
     false⟩
  else
    match getType path with
    | none =>
      ⟨registry, [(LogLevel.error, "Unable to create name for path: " ++ path ++ ".")], false⟩
    | some type =>
      ⟨{ registry with components := setKey registry.components type ⟨type, path, schema.builder⟩ },
       [(LogLevel.info, "Registered new component: " ++ type)],
       true⟩

/-- The JS property key used for registry.components[schema.type]: an absent
type property coerces to the string "undefined". -/
def jsPropKey (o : Option String) : String :=
  o.getD "undefined"

/-- constructSchema from the part_004 iteration: validate the candidate,
reject when the self-declared typeId already has an entry (logging an error
that names both paths), otherwise insert under the self-declared typeId.
The source reads the registry via getRegistry(); here it is passed
explicitly, and the logger becomes the returned log list. -/
def constructSchema (path : String) (registry : SchemaRegistry) (schema : Candidate) :
    SchemaRegistry × List (LogLevel × String) :=
  if !(isSchemaBuilder schema registry) then
    (registry,
     [(LogLevel.error,
       "Invalid schema at " ++ path ++ ". Schema must be created with createSchema. Refer to docs.")])
  else
    let ty := jsPropKey schema.typeId
    match lookupVal registry.components ty with
    | some existing =>
      (registry,
       [(LogLevel.error,
         "Invalid " ++ ty ++ " at " ++ path ++ ". Duplicate " ++ ty ++ " at: "
           ++ existing.path ++ ".")])
    | none =>
      ({ registry with components := setKey registry.components ty ⟨ty, path, schema.builder⟩ },
       [(LogLevel.info, "Registered new component: " ++ path)])

/-- One option of the discriminated union assembled by parseBlocks:
z.object of the literal discriminator plus the shape the builder returned. -/
structure ZObj where
  type : String
  shape : List (String × FieldSchema)

/-- One validation issue, with its path (array index and field name
segments) and message. -/
structure Issue where
  path : List String
  message : String
deriving DecidableEq

/-- z.string() / z.number() acceptance on a value. -/
def validateField : FieldSchema → JValue → Bool
  | .string, .str _ => true
  | .string, _ => false
  | .number, .num _ => true
  | .number, _ => false

/-- Issues raised by the z.object of one union option on the fields of an
input element: the literal discriminator must match, each declared field
must be present and accepted by its validator; unknown keys are stripped,
not errors (zod default). -/
def objIssues (zo : ZObj) (fields : List (String × JValue)) : List Issue :=
  (match lookupVal fields "type" with
   | some (.str s) => if s = zo.type then [] else [⟨["type"], "Invalid literal value"⟩]
   | _ => [⟨["type"], "Invalid literal value"⟩])
  ++ zo.shape.flatMap (fun p =>
      match lookupVal fields p.1 with
      | none => [⟨[p.1], "Required"⟩]
      | some v => if validateField p.2 v then [] else [⟨[p.1], "Invalid type"⟩])

/-- The stripped output object produced by a successful z.object parse:
the literal discriminator followed by the declared fields in shape order. -/
def objOutput (zo : ZObj) (fields : List (String × JValue)) : JValue :=
  .obj (("type", .str zo.type) ::
    zo.shape.filterMap (fun p => (lookupVal fields p.1).map (fun v => (p.1, v))))

/-- Option lookup of z.discriminatedUnion: the discriminator value must be
one of the string literals; a missing or non-string discriminator finds no
option. -/
def findBlock (blocks : List ZObj) : Option JValue → Option ZObj
  | some (.str s) => blocks.find? (fun b => b.type == s)
  | _ => none

/-- Parse of one array element by the discriminated union: non-objects are
type errors, an unmatched discriminator is an invalid_union_discriminator
issue, a matched option runs its z.object. -/
def elemParse (blocks : List ZObj) (v : JValue) : Except (List Issue) JValue :=
  match v with
  | .obj fields =>
    match findBlock blocks (lookupVal fields "type") with
    | none => .error [⟨["type"], "Invalid discriminator value"⟩]
    | some zo =>
      match objIssues zo fields with
      | [] => .ok (objOutput zo fields)
      | i :: rest => .error (i :: rest)
  | _ => .error [⟨[], "Expected object, received other type"⟩]

/-- Prepends the element index to an issue path, as z.array does. -/
def addIdx (i : Nat) (iss : Issue) : Issue :=
  ⟨toString i :: iss.path, iss.message⟩

/-- z.array over the union: every element is parsed and all issues are
collected; the call succeeds only when no element raised any. -/
def arrayParse (blocks : List ZObj) : Nat → List JValue → Except (List Issue) (List JValue)
  | _, [] => .ok []
  | i, v :: rest =>
    match elemParse blocks v, arrayParse blocks (i + 1) rest with
    | .ok o, .ok os => .ok (o :: os)
    | .ok _, .error es => .error es
    | .error e, .ok _ => .error (e.map (addIdx i))
    | .error e, .error es => .error (e.map (addIdx i) ++ es)

/-- validTypes.has(block.type) of parseBlocks: the set holds the registered
string literals, so only an equal string is known. -/
def isKnownType (validTypes : List String) : JValue → Bool
  | .str s => validTypes.contains s
  | _ => false

/-- The drop condition of the preprocess filter in parseBlocks
(src/integration.ts): block?.type && !validTypes.has(block.type). An element
with a missing or falsy discriminator is never dropped. -/
def dropUnknown (validTypes : List String) (v : JValue) : Bool :=
  match typeField v with
  | some tv => jsTruthy tv && !(isKnownType validTypes tv)
  | none => false

/-- The union options parseBlocks builds from the registry: one ZObj per
entry, in insertion order, with the literal discriminator set to the entry
type and the shape obtained by calling the builder on the context. -/
def mkBlocks (r : SchemaRegistry) (c : SchemaContext) : List ZObj :=
  r.components.map (fun p => ⟨p.2.type, p.2.schema c⟩)

/-- Outcome of building the parseBlocks schema and validating one input
array with it: every warning printed on the way, and the zod result. -/
structure RunResult where
  warnings : List String
  result : Except (List Issue) (List JValue)

/-- Is the zod result a success. -/
def isOkE {ε α : Type} : Except ε α → Bool
  | .ok _ => true
  | .error _ => false

/-- parseBlocks from src/integration.ts applied to an input array: with an
empty registry it warns once and returns the permissive z.array(z.any()),
which passes any array through unchanged; otherwise it filters out elements
whose truthy discriminator is unknown, prints one combined warning when any
were dropped, and runs the discriminated-union array validation on the
filtered sequence. -/
def runParseBlocks (r : SchemaRegistry) (c : SchemaContext) (data : List JValue) : RunResult :=
  let blocks := mkBlocks r c
  if blocks.isEmpty then
    ⟨["No blocks were initialized. A empty schema will be returned."], .ok data⟩
  else
    let validTypes := blocks.map (fun b => b.type)
    let filtered := data.filter (fun v => !dropUnknown validTypes v)
    let unknowns := (data.filter (fun v => dropUnknown validTypes v)).filterMap typeField
    let warnings :=
      if unknowns.isEmpty then []
      else ["Unknown block types were parsed: " ++ joinSep ", " (unknowns.map jsShow)
              ++ ". They will not show."]
    ⟨warnings, arrayParse blocks 0 filtered⟩

/-- One entry of the virtualModules map of the vite plugin in
src/integration.ts. -/
structure SchemaModule where
  code : String
  realPath : String

/-- isVirtual from src/integration.ts: id.startsWith(the NUL marker). -/
def isVirtualId (id : String) : Bool :=
  match id.data with
  | [] => false
  | c :: _ => c == '\x00'

/-- Substring test, modelling String.prototype.includes. -/
def containsSeq (pat : List Char) : List Char → Bool
  | [] => pat.isEmpty
  | c :: rest => pat.isPrefixOf (c :: rest) || containsSeq pat rest

/-- id.includes(sub) of JS. -/
def jsIncludes (s sub : String) : Bool :=
  containsSeq sub.data s.data

/-- The registration step of configureServer in src/integration.ts: the
virtual id is the fixed prefix plus the content hash of the origin path, and
the map stores the bundled code under the NUL-marked form of that id. The
md5 digest is modelled as an arbitrary function of the path, which is all
the claims depend on; the returned id is the marked form, which is the key
the load hook receives. -/
def registerVirtual (hash : String → String) (store : List (String × SchemaModule))
    (path code : String) : String × List (String × SchemaModule) :=
  let virtualId := "\x00" ++ ("virtual:schema:" ++ hash path)
  (virtualId, setKey store virtualId ⟨code, path⟩)

/-- The load hook of the vite plugin in src/integration.ts restricted to
schema modules: when the id carries the NUL marker and the virtual:schema:
namespace, answer with the stored code, if any. -/
def resolveStoredCode (store : List (String × SchemaModule)) (id : String) : Option String :=
  if isVirtualId id && jsIncludes id "virtual:schema:" then
    (lookupVal store id).map (fun m => m.code)
  else none

/-- The Hero schema builder of the spec scenarios: one required string
field named title. -/
def heroBuilder : SchemaBuilderFn := fun _ => [("title", FieldSchema.string)]

/-- A registry holding only the Hero type with the Hero schema. -/
def heroRegistry : SchemaRegistry :=
  ⟨[("Hero", ⟨"Hero", "src/components/Hero.astro", heroBuilder⟩)], 0⟩

/-- A valid candidate for the registry with token 0: callable, tagged with
typeId Hero and the matching identity token. -/
def heroCand : Candidate := ⟨true, some "Hero", some 0, heroBuilder⟩

/-- A candidate that is callable and carries the right identity token but
no typeId property at all. -/
def noTypeCand : Candidate := ⟨true, none, some 0, heroBuilder⟩

/-- A candidate carrying typeId and the right token but not callable. -/
def notCallableCand : Candidate := ⟨false, some "Hero", some 0, heroBuilder⟩

/-- A valid candidate for the registry with token 7 whose builder declares
no fields. -/
def candReg7 : Candidate := ⟨true, none, some 7, fun _ => []⟩

/-- The registry obtained by registering the file x/.astro (whose
path-derived typeId is the empty string) into a fresh registry. -/
def emptyTypeReg : SchemaRegistry :=
  (buildAstroBlock "x/.astro" ⟨[], 7⟩ candReg7).registry

/-- The input array of the C2 scenario. -/
def c2Input : List JValue :=
  [.obj [("type", .str "Hero"), ("title", .str "x")],
   .obj [("type", .str "CTA"), ("heading", .str "y")]]

/-- The combined unknown-type warning the C2 scenario prints. -/
def c2WarnMsg : String :=
  "Unknown block types were parsed: CTA. They will not show."

/-- Head of a character list is not a digit (vacuously true when empty). -/
def headNotDigitB : List Char → Bool
  | [] => true
  | c :: _ => !isDigitChar c

/- ===================== helper lemmas ===================== -/

theorem okChar_sanitizeChar (c : Char) : okChar (sanitizeChar c) = true := by
  unfold sanitizeChar
  split
  · assumption
  · decide

theorem map_sanitizeChar_of_ok (l : List Char) (h : l.all okChar = true) :
    l.map sanitizeChar = l := by
  induction l with
  | nil => rfl
  | cons c rest ih =>
    simp only [List.all_cons, Bool.and_eq_true] at h
    simp [List.map_cons, sanitizeChar, h.1, ih h.2]

theorem all_ok_map_sanitizeChar (l : List Char) : (l.map sanitizeChar).all okChar = true := by
  induction l with
  | nil => rfl
  | cons c rest ih => simp [List.map_cons, List.all_cons, okChar_sanitizeChar, ih]

theorem sanitizeList_all_ok (l : List Char) : (sanitizeList l).all okChar = true := by
  have h := all_ok_map_sanitizeChar l
  unfold sanitizeList
  rcases hm : l.map sanitizeChar with _ | ⟨c, rest⟩
  · rfl
  · rw [hm] at h
    simp only [List.all_cons, Bool.and_eq_true] at h
    have hu : okChar '_' = true := by decide
    cases hd : isDigitChar c
    · simp [hd, List.all_cons, h.1, h.2]
    · simp [hd, List.all_cons, h.1, h.2, hu]

theorem sanitizeList_head (l : List Char) : headNotDigitB (sanitizeList l) = true := by
  unfold sanitizeList
  rcases hm : l.map sanitizeChar with _ | ⟨c, rest⟩
  · rfl
  · have hu : isDigitChar '_' = false := by decide
    cases hd : isDigitChar c
    · simp [hd, headNotDigitB]
    · simp [hd, headNotDigitB, hu]

theorem sanitizeList_fixed (l : List Char) (h1 : l.all okChar = true)
    (h2 : headNotDigitB l = true) : sanitizeList l = l := by
  unfold sanitizeList
  rw [map_sanitizeChar_of_ok l h1]
  cases l with
  | nil => rfl
  | cons c rest =>
    simp only [headNotDigitB, Bool.not_eq_true'] at h2
    simp [h2]

theorem sanitizeType_idem (s : String) : sanitizeType (sanitizeType s) = sanitizeType s := by
  show String.mk (sanitizeList (sanitizeList s.data)) = String.mk (sanitizeList s.data)
  exact congrArg String.mk
    (sanitizeList_fixed _ (sanitizeList_all_ok _) (sanitizeList_head _))

theorem isSanitizedId_sanitizeType (s : String) : isSanitizedId (sanitizeType s) = true := by
  unfold isSanitizedId
  rw [sanitizeType_idem]
  simp

theorem identStart_of_ok_not_digit (c : Char) (h1 : okChar c = true)
    (h2 : isDigitChar c = false) : identStart c = true := by
  unfold okChar at h1
  unfold isDigitChar at h2
  unfold identStart
  simp only [Bool.or_eq_true] at h1 ⊢
  rcases h1 with (((h | h) | h) | h) | h
  · exact Or.inl (Or.inl (Or.inl h))
  · exact Or.inl (Or.inl (Or.inr h))
  · simp [h] at h2
  · exact Or.inl (Or.inr h)
  · exact Or.inr h

theorem matchesIdent_sanitizeList (c : Char) (rest : List Char) :
    matchesIdentRegex ⟨sanitizeList (c :: rest)⟩ = true := by
  have hok : okChar (sanitizeChar c) = true := okChar_sanitizeChar c
  have hall : (rest.map sanitizeChar).all okChar = true := all_ok_map_sanitizeChar rest
  show matchesIdentRegex ⟨sanitizeList (c :: rest)⟩ = true
  unfold sanitizeList
  simp only [List.map_cons]
  cases hd : isDigitChar (sanitizeChar c)
  · simp only [Bool.false_eq_true, if_false]
    show (identStart (sanitizeChar c) && (rest.map sanitizeChar).all okChar) = true
    simp [identStart_of_ok_not_digit _ hok hd, hall]
  · simp only [if_true]
    show (identStart '_' && ((sanitizeChar c :: rest.map sanitizeChar).all okChar)) = true
    have hu : identStart '_' = true := by decide
    simp [List.all_cons, hok, hall, hu]

theorem setKey_all {α : Type} (P : String × α → Bool) (m : List (String × α)) (k : String)
    (v : α) (hm : m.all P = true) (hv : P (k, v) = true) : (setKey m k v).all P = true := by
  induction m with
  | nil => simp [setKey, hv]
  | cons p rest ih =>
    simp only [List.all_cons, Bool.and_eq_true] at hm
    by_cases hk : p.1 = k
    · simp [setKey, hk, List.all_cons, hv, hm.2]
    · simp [setKey, hk, List.all_cons, hm.1, ih hm.2]

theorem setKey_lookup {α : Type} (m : List (String × α)) (k : String) (v : α) :
    lookupVal (setKey m k v) k = some v := by
  induction m with
  | nil => simp [setKey, lookupVal]
  | cons p rest ih =>
    by_cases hk : p.1 = k
    · simp [setKey, hk, lookupVal]
    · have hpk : (p.1 == k) = false := by simp [hk]
      simpa [setKey, hk, lookupVal, List.find?, hpk] using ih

theorem setKey_keys_mem {α : Type} (m : List (String × α)) (k x : String) (v : α)
    (h : x ∈ (setKey m k v).map Prod.fst) : x ∈ m.map Prod.fst ∨ x = k := by
  induction m with
  | nil =>
    rw [setKey, List.map_cons, List.map_nil, List.mem_singleton] at h
    exact Or.inr h
  | cons p rest ih =>
    rw [List.map_cons, List.mem_cons]
    by_cases hk : p.1 = k
    · rw [setKey, if_pos hk, List.map_cons, List.mem_cons] at h
      rcases h with h | h
      · exact Or.inr h
      · exact Or.inl (Or.inr h)
    · rw [setKey, if_neg hk, List.map_cons, List.mem_cons] at h
      rcases h with h | h
      · exact Or.inl (Or.inl h)
      · rcases ih h with h2 | h2
        · exact Or.inl (Or.inr h2)
        · exact Or.inr h2

theorem setKey_keys_nodup {α : Type} (m : List (String × α)) (k : String) (v : α)
    (h : (m.map Prod.fst).Nodup) : ((setKey m k v).map Prod.fst).Nodup := by
  induction m with
  | nil => simp [setKey]
  | cons p rest ih =>
    simp only [List.map_cons, List.nodup_cons] at h
    by_cases hk : p.1 = k
    · simp only [setKey, hk, if_true, List.map_cons, List.nodup_cons]
      exact ⟨hk ▸ h.1, h.2⟩
    · simp only [setKey, hk, if_false, List.map_cons, List.nodup_cons]
      refine ⟨?_, ih h.2⟩
      intro hmem
      rcases setKey_keys_mem rest k p.1 v hmem with hin | heq
      · exact h.1 hin
      · exact hk heq

theorem setKey_countP {α : Type} (m : List (String × α)) (k : String) (v : α)
    (h : (m.map Prod.fst).Nodup) :
    (setKey m k v).countP (fun e => e.1 == k) = 1 := by
  induction m with
  | nil => simp [setKey, List.countP_cons]
  | cons p rest ih =>
    simp only [List.map_cons, List.nodup_cons] at h
    by_cases hk : p.1 = k
    · have hzero : rest.countP (fun e => e.1 == k) = 0 := by
        rw [List.countP_eq_zero]
        intro e he
        have hmem : e.1 ∈ rest.map Prod.fst := List.mem_map_of_mem _ he
        simp only [beq_iff_eq]
        intro heq
        rw [heq, ← hk] at hmem
        exact h.1 hmem
      simp [setKey, hk, List.countP_cons, hzero]
    · have hpk : (p.1 == k) = false := by simp [hk]
      simp [setKey, hk, List.countP_cons, ih h.2, hpk]

theorem contains_of_mem {a : String} {l : List String} (h : a ∈ l) : l.contains a = true := by
  induction l with
  | nil => cases h
  | cons x xs ih =>
    rcases List.mem_cons.mp h with heq | hm
    · subst heq
      simp [List.contains, List.elem]
    · simp [List.contains, List.elem]
      rcases hx : (a == x)
      · simpa [List.contains, List.elem] using ih hm
      · rfl

theorem arrayParse_not_ok (blocks : List ZObj) (v : JValue) (es : List Issue)
    (herr : elemParse blocks v = .error es) :
    ∀ l : List JValue, v ∈ l → ∀ i, isOkE (arrayParse blocks i l) = false := by
  intro l
  induction l with
  | nil => intro hm; cases hm
  | cons a rest ih =>
    intro hm i
    rcases List.mem_cons.mp hm with heq | hm2
    · subst heq
      rcases h2 : arrayParse blocks (i + 1) rest with os | es2
      · simp [arrayParse, herr, h2, isOkE]
      · simp [arrayParse, herr, h2, isOkE]
    · have hrec := ih hm2 (i + 1)
      rcases h1 : elemParse blocks a with o | es1 <;>
        rcases h2 : arrayParse blocks (i + 1) rest with os | es2 <;>
          simp [arrayParse, h1, h2, isOkE] at hrec ⊢

theorem str_data_append (a b : String) : (a ++ b).data = a.data ++ b.data := rfl

theorem isPre_self_append (l t : List Char) : l.isPrefixOf (l ++ t) = true := by
  induction l with
  | nil => cases t <;> rfl
  | cons c rest ih => simp [List.isPrefixOf, ih]

theorem containsSeq_cons (pat : List Char) (c : Char) (l : List Char)
    (h : containsSeq pat l = true) : containsSeq pat (c :: l) = true := by
  simp [containsSeq, h]

theorem containsSeq_self_append (pat t : List Char) : containsSeq pat (pat ++ t) = true := by
  cases pat with
  | nil =>
    cases t with
    | nil => rfl
    | cons c rest => simp [containsSeq, List.isPrefixOf]
  | cons c rest => simp [containsSeq, isPre_self_append]

/- ===================== claim theorems ===================== -/

/-- C1: the claim says a typeId collision from a different originPath is
rejected with a warning naming both paths and the first entry kept. The
buildAstroBlock of src/integration.ts instead replaces the existing entry,
reports the registration as new, and logs only the info line: registering
Hero from site/a and then Hero from site/b leaves only the site/b entry. -/
theorem c1_collision_overwrites_without_warning :
    (buildAstroBlock "site/a/Hero.astro" ⟨[], 0⟩ heroCand).registry.components.map
      (fun p => (p.1, p.2.path)) = [("Hero", "site/a/Hero.astro")]
    ∧ (buildAstroBlock "site/b/Hero.astro"
        (buildAstroBlock "site/a/Hero.astro" ⟨[], 0⟩ heroCand).registry heroCand).registry.components.map
      (fun p => (p.1, p.2.path)) = [("Hero", "site/b/Hero.astro")]
    ∧ (buildAstroBlock "site/b/Hero.astro"
        (buildAstroBlock "site/a/Hero.astro" ⟨[], 0⟩ heroCand).registry heroCand).log
      = [(LogLevel.info, "Registered new component: Hero")]
    ∧ (buildAstroBlock "site/b/Hero.astro"
        (buildAstroBlock "site/a/Hero.astro" ⟨[], 0⟩ heroCand).registry heroCand).isNew = true :=
  ⟨rfl, rfl, rfl, rfl⟩

/-- C2: with a registry holding only Hero (title: string), validating the
two-element input keeps and accepts the Hero element, drops the CTA element,
and prints exactly one warning whose text mentions CTA. -/
theorem c2_unknown_type_dropped_with_warning :
    (runParseBlocks heroRegistry () c2Input).result
      = .ok [.obj [("type", .str "Hero"), ("title", .str "x")]]
    ∧ (runParseBlocks heroRegistry () c2Input).warnings = [c2WarnMsg]
    ∧ jsIncludes c2WarnMsg "CTA" = true := by
  refine ⟨rfl, ?_, rfl⟩
  simp only [runParseBlocks, c2Input, c2WarnMsg]
  norm_num [mkBlocks, heroRegistry, heroBuilder, dropUnknown, typeField, lookupVal, jsTruthy,
    isKnownType, jsShow, joinSep]
  rfl

/-- C3: an element carrying a registered discriminator whose fields violate
that type's own constraints is kept by the preprocess filter, and the whole
validation call fails. -/
theorem c3_field_error_fatal (r : SchemaRegistry) (c : SchemaContext) (data : List JValue)
    (fields : List (String × JValue)) (t : String) (zo : ZObj)
    (hmem : JValue.obj fields ∈ data)
    (hty : lookupVal fields "type" = some (JValue.str t))
    (hfind : (mkBlocks r c).find? (fun b => b.type == t) = some zo)
    (hbad : objIssues zo fields ≠ []) :
    JValue.obj fields ∈
      data.filter (fun v => !dropUnknown ((mkBlocks r c).map (fun b => b.type)) v)
    ∧ isOkE (runParseBlocks r c data).result = false := by
  have hz_mem : zo ∈ mkBlocks r c := List.mem_of_find?_eq_some hfind
  have hz_t : zo.type = t := by
    have := List.find?_some hfind
    simpa using this
  have htmem : t ∈ (mkBlocks r c).map (fun b => b.type) := by
    rw [← hz_t]
    exact List.mem_map_of_mem _ hz_mem
  have hdrop : dropUnknown ((mkBlocks r c).map (fun b => b.type)) (JValue.obj fields) = false := by
    simp [dropUnknown, typeField, hty, isKnownType]
    exact fun _ => ⟨zo, hz_mem, hz_t⟩
  have hkeep : JValue.obj fields ∈
      data.filter (fun v => !dropUnknown ((mkBlocks r c).map (fun b => b.type)) v) :=
    List.mem_filter.mpr ⟨hmem, by simp [hdrop]⟩
  refine ⟨hkeep, ?_⟩
  have hne : (mkBlocks r c).isEmpty = false := by
    rcases hmk : mkBlocks r c with _ | ⟨b, bs⟩
    · rw [hmk] at hz_mem
      cases hz_mem
    · rfl
  have herr : ∃ es, elemParse (mkBlocks r c) (JValue.obj fields) = .error es := by
    rcases hoi : objIssues zo fields with _ | ⟨i, restIss⟩
    · exact absurd hoi hbad
    · exact ⟨i :: restIss, by simp [elemParse, findBlock, hty, hfind, hoi]⟩
  obtain ⟨es, herr⟩ := herr
  have hfail := arrayParse_not_ok (mkBlocks r c) (JValue.obj fields) es herr _ hkeep 0
  simp only [runParseBlocks, hne, Bool.false_eq_true, if_false]
  exact hfail

/-- Witness for C3 at the spec instance: Hero requires title, the input is a
lone Hero element with no title, the call fails with the field-level issue
naming title, and the element was kept by the filter. -/
theorem c3_witness :
    (runParseBlocks heroRegistry () [JValue.obj [("type", JValue.str "Hero")]]).result
      = .error [⟨["0", "title"], "Required"⟩]
    ∧ (JValue.obj [("type", JValue.str "Hero")] ∈
        ([JValue.obj [("type", JValue.str "Hero")]].filter
          (fun v => !dropUnknown ((mkBlocks heroRegistry ()).map (fun b => b.type)) v))
       ∧ isOkE (runParseBlocks heroRegistry () [JValue.obj [("type", JValue.str "Hero")]]).result
          = false) :=
  ⟨rfl,
   c3_field_error_fatal heroRegistry () _ _ "Hero" ⟨"Hero", [("title", FieldSchema.string)]⟩
     (List.Mem.head _) rfl rfl (by decide)⟩

/-- C4: the claim says registration also checks that the candidate carries a
typeId; isSchemaBuilder only checks callability and the identity token, so a
callable candidate with the right token and no typeId at all is accepted and
registered (the typeId is derived from the path instead). -/
theorem c4_counterexample :
    noTypeCand.typeId = none
    ∧ isSchemaBuilder noTypeCand ⟨[], 0⟩ = true
    ∧ (buildAstroBlock "lib/Hero.astro" ⟨[], 0⟩ noTypeCand).isNew = true
    ∧ (buildAstroBlock "lib/Hero.astro" ⟨[], 0⟩ noTypeCand).registry.components.map
        (fun p => (p.1, p.2.path)) = [("Hero", "lib/Hero.astro")] :=
  ⟨rfl, rfl, rfl, rfl⟩

/-- C4 amended: registration validates that the candidate is callable and
carries a registryId equal to the owning registry's identity token; a
candidate that is not callable or whose registryId differs from that token
(including an absent one) is rejected with an error log and the registry is
unchanged. Candidate typeId presence is not checked. -/
theorem c4_amended_rejects (path : String) (r : SchemaRegistry) (cand : Candidate)
    (h : cand.callable = false ∨ cand.registryId ≠ some r.id) :
    (buildAstroBlock path r cand).registry = r
    ∧ (buildAstroBlock path r cand).isNew = false
    ∧ ∃ msg, (buildAstroBlock path r cand).log = [(LogLevel.error, msg)] := by
  have hb : isSchemaBuilder cand r = false := by
    unfold isSchemaBuilder
    rcases h with h | h
    · simp [h]
    · have hne : (cand.registryId == some r.id) = false := by
        simp [h]
      simp [hne]
  unfold buildAstroBlock
  rw [hb]
  exact ⟨rfl, rfl, _, rfl⟩

/-- Witness for C4 amended: a non-callable candidate is rejected and the
registry is left empty. -/
theorem c4_amended_witness :
    (buildAstroBlock "lib/Hero.astro" ⟨[], 0⟩ notCallableCand).registry = ⟨[], 0⟩
    ∧ (buildAstroBlock "lib/Hero.astro" ⟨[], 0⟩ notCallableCand).isNew = false
    ∧ ∃ msg, (buildAstroBlock "lib/Hero.astro" ⟨[], 0⟩ notCallableCand).log
        = [(LogLevel.error, msg)] :=
  c4_amended_rejects "lib/Hero.astro" ⟨[], 0⟩ notCallableCand (Or.inl rfl)

/-- C5: the claim says every stored typeId is sanitized; the path-derived
registration path stores the raw filename, so registering
src/hero-section.astro stores the typeId hero-section, which sanitization
would change. -/
theorem c5_counterexample :
    (buildAstroBlock "src/hero-section.astro" ⟨[], 0⟩ heroCand).registry.components.map
      (fun p => p.2.type) = ["hero-section"]
    ∧ isSanitizedId "hero-section" = false :=
  ⟨rfl, rfl⟩

/-- C5 amended: typeIds stored through the self-declared path (createSchema
feeding constructSchema) are always sanitized identifiers — the invariant is
preserved by that registration — while the path-derived path (getType
feeding buildAstroBlock) stores the raw filename, which need not be
sanitized. -/
theorem c5_amended_selfdeclared_sanitized (path ty : String) (b : SchemaBuilderFn)
    (r : SchemaRegistry)
    (h : r.components.all (fun p => isSanitizedId p.2.type) = true) :
    (constructSchema path r (createSchema ty b r.id)).1.components.all
      (fun p => isSanitizedId p.2.type) = true := by
  unfold constructSchema createSchema
  have hb : isSchemaBuilder ⟨true, some (sanitizeType ty), some r.id, b⟩ r = true := by
    simp [isSchemaBuilder]
  rw [hb]
  simp only [jsPropKey, Option.getD, Bool.not_true, Bool.false_eq_true, if_false]
  rcases hl : lookupVal r.components (sanitizeType ty) with _ | ex
  · simp only [hl]
    exact setKey_all _ _ _ _ h (isSanitizedId_sanitizeType ty)
  · simp only [hl]
    exact h

/-- Witness for C5 amended: registering a createSchema candidate built from
a wild type name into an empty registry keeps all stored typeIds
sanitized. -/
theorem c5_amended_witness :
    (constructSchema "src/Hero.astro" ⟨[], 5⟩ (createSchema "9hero wild" heroBuilder 5)).1.components.all
      (fun p => isSanitizedId p.2.type) = true :=
  c5_amended_selfdeclared_sanitized "src/Hero.astro" "9hero wild" heroBuilder ⟨[], 5⟩ rfl

/-- C6: registering the same origin path twice yields the same virtualId
both times, resolving that id afterwards returns the second code, and the
store holds exactly one entry under that id. -/
theorem c6_register_same_id_resolves_latest (hash : String → String)
    (store : List (String × SchemaModule)) (p codeA codeB : String)
    (hnd : (store.map Prod.fst).Nodup) :
    (registerVirtual hash store p codeA).1
      = (registerVirtual hash (registerVirtual hash store p codeA).2 p codeB).1
    ∧ resolveStoredCode (registerVirtual hash (registerVirtual hash store p codeA).2 p codeB).2
        (registerVirtual hash store p codeA).1 = some codeB
    ∧ (registerVirtual hash (registerVirtual hash store p codeA).2 p codeB).2.countP
        (fun e => e.1 == (registerVirtual hash store p codeA).1) = 1 := by
  refine ⟨rfl, ?_, ?_⟩
  · have hv : isVirtualId ("\x00" ++ ("virtual:schema:" ++ hash p)) = true := by
      have hdata : ("\x00" ++ ("virtual:schema:" ++ hash p)).data
          = '\x00' :: ("virtual:schema:" ++ hash p).data := by
        rw [str_data_append]
        rfl
      simp [isVirtualId, hdata]
    have hinc : jsIncludes ("\x00" ++ ("virtual:schema:" ++ hash p)) "virtual:schema:" = true := by
      unfold jsIncludes
      have hdata : ("\x00" ++ ("virtual:schema:" ++ hash p)).data
          = '\x00' :: ("virtual:schema:".data ++ (hash p).data) := by
        rw [str_data_append, str_data_append]
        rfl
      rw [hdata]
      exact containsSeq_cons _ _ _ (containsSeq_self_append _ _)
    simp [registerVirtual, resolveStoredCode, hv, hinc, setKey_lookup]
  · have h1 : ((setKey store ("\x00" ++ ("virtual:schema:" ++ hash p)) ⟨codeA, p⟩).map
        Prod.fst).Nodup := setKey_keys_nodup _ _ _ hnd
    simpa [registerVirtual] using
      setKey_countP (setKey store ("\x00" ++ ("virtual:schema:" ++ hash p)) ⟨codeA, p⟩)
        ("\x00" ++ ("virtual:schema:" ++ hash p)) ⟨codeB, p⟩ h1

/-- Witness for C6 with the identity digest and an empty store. -/
theorem c6_witness :
    (registerVirtual (fun s => s) [] "src/Hero.astro" "codeA").1
      = (registerVirtual (fun s => s)
          (registerVirtual (fun s => s) [] "src/Hero.astro" "codeA").2 "src/Hero.astro" "codeB").1
    ∧ resolveStoredCode
        (registerVirtual (fun s => s)
          (registerVirtual (fun s => s) [] "src/Hero.astro" "codeA").2 "src/Hero.astro" "codeB").2
        (registerVirtual (fun s => s) [] "src/Hero.astro" "codeA").1 = some "codeB"
    ∧ (registerVirtual (fun s => s)
          (registerVirtual (fun s => s) [] "src/Hero.astro" "codeA").2 "src/Hero.astro" "codeB").2.countP
        (fun e => e.1 == (registerVirtual (fun s => s) [] "src/Hero.astro" "codeA").1) = 1 :=
  c6_register_same_id_resolves_latest (fun s => s) [] "src/Hero.astro" "codeA" "codeB"
    List.nodup_nil

/-- C7: the claim quantifies over every string, but sanitizing the empty
string returns the empty string, which does not match the identifier
regex. -/
theorem c7_counterexample :
    sanitizeType "" = "" ∧ matchesIdentRegex (sanitizeType "") = false :=
  ⟨rfl, rfl⟩

/-- C7 amended: for every non-empty input the output of sanitizeType matches
the identifier regex (non-empty, no leading digit, all characters in the
identifier class); the empty string is the only exception and maps to
itself. -/
theorem c7_amended_nonempty_matches (s : String) (h : s ≠ "") :
    matchesIdentRegex (sanitizeType s) = true := by
  obtain ⟨l⟩ := s
  cases l with
  | nil => exact absurd rfl h
  | cons c rest => exact matchesIdent_sanitizeList c rest

/-- Witness for C7 amended at an input with a leading digit and a space. -/
theorem c7_amended_witness :
    matchesIdentRegex (sanitizeType "9 lives") = true :=
  c7_amended_nonempty_matches "9 lives" (by decide)

/-- C8: sanitizeType is idempotent. -/
theorem c8_sanitize_idempotent (s : String) :
    sanitizeType (sanitizeType s) = sanitizeType s :=
  sanitizeType_idem s

/-- C9: with an empty registry, parseBlocks warns exactly once and the
resulting permissive schema accepts any array unchanged, including the
empty one. -/
theorem c9_empty_registry_permissive (n : Nat) (c : SchemaContext) (data : List JValue) :
    runParseBlocks ⟨[], n⟩ c data
      = ⟨["No blocks were initialized. A empty schema will be returned."], .ok data⟩ :=
  rfl

/-- C10 amended: over a non-empty registry, an element whose discriminator
is missing or falsy is never dropped by the preprocess filter; when that
discriminator additionally matches no registered literal (which can fail
only for the empty-string discriminator with an empty-string typeId in the
registry), the whole validation call fails. -/
theorem c10_amended_falsy_kept_and_fails (r : SchemaRegistry) (c : SchemaContext)
    (data : List JValue) (e : JValue)
    (hne : (mkBlocks r c).isEmpty = false)
    (hmem : e ∈ data)
    (hfalsy : ∀ tv, typeField e = some tv → jsTruthy tv = false)
    (hnofind : findBlock (mkBlocks r c) (typeField e) = none) :
    e ∈ data.filter (fun v => !dropUnknown ((mkBlocks r c).map (fun b => b.type)) v)
    ∧ isOkE (runParseBlocks r c data).result = false := by
  have hdrop : dropUnknown ((mkBlocks r c).map (fun b => b.type)) e = false := by
    rcases htv : typeField e with _ | tv
    · simp [dropUnknown, htv]
    · simp [dropUnknown, htv, hfalsy tv htv]
  have hkeep : e ∈ data.filter (fun v => !dropUnknown ((mkBlocks r c).map (fun b => b.type)) v) :=
    List.mem_filter.mpr ⟨hmem, by simp [hdrop]⟩
  refine ⟨hkeep, ?_⟩
  have herr : ∃ es, elemParse (mkBlocks r c) e = .error es := by
    rcases e with sv | nv | bv | _ | fields | xs
    · exact ⟨_, rfl⟩
    · exact ⟨_, rfl⟩
    · exact ⟨_, rfl⟩
    · exact ⟨_, rfl⟩
    · simp only [typeField] at hnofind
      exact ⟨[⟨["type"], "Invalid discriminator value"⟩], by simp [elemParse, hnofind]⟩
    · exact ⟨_, rfl⟩
  obtain ⟨es, herr⟩ := herr
  have hfail := arrayParse_not_ok (mkBlocks r c) e es herr _ hkeep 0
  simp only [runParseBlocks, hne, Bool.false_eq_true, if_false]
  exact hfail

/-- Witness for C10 amended: an element with no discriminator field at all
is kept by the filter and makes the call fail with the discriminator
issue. -/
theorem c10_amended_witness :
    (runParseBlocks heroRegistry () [JValue.obj [("heading", JValue.str "y")]]).result
      = .error [⟨["0", "type"], "Invalid discriminator value"⟩]
    ∧ (JValue.obj [("heading", JValue.str "y")] ∈
        ([JValue.obj [("heading", JValue.str "y")]].filter
          (fun v => !dropUnknown ((mkBlocks heroRegistry ()).map (fun b => b.type)) v))
       ∧ isOkE (runParseBlocks heroRegistry ()
          [JValue.obj [("heading", JValue.str "y")]]).result = false) :=
  ⟨rfl,
   c10_amended_falsy_kept_and_fails heroRegistry () _ _ rfl (List.Mem.head _)
     (fun tv h => Option.noConfusion h) rfl⟩

/-- C10: the claim says a falsy discriminator always makes the whole call
fail; but a registry can hold the empty-string typeId (reachable by
registering the file x/.astro), and then an element whose discriminator is
the falsy empty string is kept by the filter and validates successfully. -/
theorem c10_counterexample :
    emptyTypeReg.components.map (fun p => p.1) = [""]
    ∧ jsTruthy (JValue.str "") = false
    ∧ dropUnknown ((mkBlocks emptyTypeReg ()).map (fun b => b.type))
        (JValue.obj [("type", JValue.str "")]) = false
    ∧ (runParseBlocks emptyTypeReg () [JValue.obj [("type", JValue.str "")]]).result
        = .ok [JValue.obj [("type", JValue.str "")]] :=
  ⟨rfl, rfl, rfl, rfl⟩

end AstroFM
